import Mathlib

/-!
Verification development for the YunoCode client: a shallow embedding of the
project invitation/membership workflow, the project-list filter, the
create-project form and the email-dispatch wrappers, with theorems checking
the statements of the specification against the embedded code.

Sources embedded:
  - `src/components/ProjectMembersModal.tsx` (`handleInvite`,
    `loadMembersAndInvitations`, `handleCancelInvitation`)
  - `src/components/AuthenticatedView.tsx` (`filterProjects`,
    `loadPendingInvitationsCount`)
  - `src/components/CreateProjectModal.tsx` (`handleSubmit`, `handleAddTag`)
  - `src/lib/emailService.ts` (`sendInvitationEmail`, `sendContactEmail`)

Timestamps are modelled as `Nat`; remote tables as lists of rows; the
behaviour of the external email API and the server-generated invitation
fields (id, token) are parameters of the embedded functions.
-/

namespace YunoCode

/-- Executable model of JS `toLowerCase`: lowercase character by character. -/
def toLowerStr (s : String) : String :=
  ⟨s.data.map Char.toLower⟩

/-- Executable model of JS `trim`: strip whitespace from both ends. -/
def trimStr (s : String) : String :=
  ⟨((s.data.dropWhile Char.isWhitespace).reverse.dropWhile Char.isWhitespace).reverse⟩

/-- Emptiness of a string, i.e. JS falsiness of a string value. -/
def isEmptyStr (s : String) : Bool :=
  s.data.isEmpty

/-- A character admitted by the `[^\s@]` character class of the e-mail
regex in `handleInvite`: anything but whitespace and `@`. -/
def notWsAt (c : Char) : Bool :=
  !(c == '@' || c.isWhitespace)

/-- The local part `[^\s@]+` before the `@`: nonempty, no whitespace, no `@`. -/
def emailLocalOk (cs : List Char) : Bool :=
  !cs.isEmpty && cs.all notWsAt

/-- The domain part `[^\s@]+\.[^\s@]+` after the `@`: no whitespace or `@`,
and some `.` that is neither the first nor the last character (the two
`[^\s@]+` groups around the chosen dot must be nonempty; a dot itself is in
`[^\s@]`, so any interior dot witnesses a match). -/
def emailDomainOk (cs : List Char) : Bool :=
  cs.all notWsAt &&
    (List.range cs.length).any fun i =>
      decide (1 ≤ i) && decide (i + 1 < cs.length) && (cs.get? i == some '.')

/-- The check `emailRegex.test(input)` for `/^[^\s@]+@[^\s@]+\.[^\s@]+$/`: split at the
first `@` (the groups forbid `@`, so a matching string has exactly one) and
check both sides. -/
def matchesEmailPattern (s : String) : Bool :=
  let cs := s.toList
  match cs.findIdx? (· == '@') with
  | none => false
  | some i => emailLocalOk (cs.take i) && emailDomainOk (cs.drop (i + 1))

/-- The authenticated user as returned by `supabase.auth.getUser()`:
the fields `handleInvite` reads. -/
structure AuthUser where
  id : String
  email : String
deriving Repr, DecidableEq

/-- A row of the `profiles` table, restricted to the columns the invite
flow reads (`username`, `email`, `user_id`). -/
structure Profile where
  user_id : String
  username : String
  email : String
deriving Repr, DecidableEq

/-- A row of the `project_invitations` table. -/
structure InvitationRow where
  id : String
  project_id : String
  email : String
  role : String
  invited_by : String
  inviter_email : String
  token : String
  created_at : Nat
  expires_at : Nat
  accepted_at : Option Nat
deriving Repr, DecidableEq

/-- Pending predicate `accepted_at IS NULL AND expires_at > now`, used
by every pending-invitations query. -/
def InvitationRow.isPending (now : Nat) (r : InvitationRow) : Bool :=
  r.accepted_at == none && decide (now < r.expires_at)

/-- The remote state the invite flow reads and writes. -/
structure Db where
  invitations : List InvitationRow
deriving Repr, DecidableEq

/-- User-visible outcome of one `handleInvite` run, one constructor per
toast/return path of the source. -/
inductive InviteOutcome where
  /-- Toast Input required: the trimmed input was empty; nothing was attempted. -/
  | inputRequired
  /-- Toast Authentication error: no signed-in user. -/
  | authRequired
  /-- Toast Invalid invitation: the resolved target is the inviter themselves. -/
  | selfInvite
  /-- Toast User not found: username lookup missed. -/
  | notFound
  /-- Toast Already invited: the insert hit the uniqueness violation (code 23505). -/
  | duplicatePending
  /-- Toast Invitation sent: row inserted and the e-mail reported success. -/
  | emailSent (email : String)
  /-- Toast Email notification failed: row inserted, e-mail result unsuccessful. -/
  | emailNotSent (email : String)
  /-- Toast Invitation created but e-mail failed to send: row inserted, the
  dispatch block threw and was caught. -/
  | emailDispatchThrew (email : String)
deriving Repr, DecidableEq

/-- Modelled from the spec: the `profiles.username` column is unique and
case-insensitive, so the equality lookup the client issues
(`.from("profiles").select(...).eq("username", input).maybeSingle()`) resolves
usernames by case-insensitive exact match. The collation of the column lives
in the backend schema, which is not part of the client sources of this
repository. -/
def lookupProfileByUsername (profiles : List Profile) (input : String) : Option Profile :=
  profiles.find? fun p => toLowerStr p.username == toLowerStr input

/-- The target-resolution block of `handleInvite`: an e-mail-shaped input is
lowercased and used as the target e-mail (after the self-invite check
against `user.email`); any other input is treated as a username, looked up
in `profiles`, checked against `user.id`, and resolved to the stored e-mail
of the profile. -/
def resolveTarget (profiles : List Profile) (user : AuthUser) (input : String) :
    Except InviteOutcome String :=
  if matchesEmailPattern input then
    let targetEmail := toLowerStr input
    if targetEmail == user.email then .error .selfInvite
    else .ok targetEmail
  else
    match lookupProfileByUsername profiles input with
    | none => .error .notFound
    | some profile =>
      if profile.user_id == user.id then .error .selfInvite
      else .ok profile.email

/-- Modelled from the spec: the storage layer keeps at most one unexpired,
unaccepted invitation per (project, e-mail) pair; violating the constraint
is reported with the uniqueness-violation error code `23505` and inserts
nothing. The constraint itself lives in the backend schema, outside the
client sources of this repository; the client only maps the error code. -/
def insertInvitation (now : Nat) (db : Db) (row : InvitationRow) : Except String Db :=
  if db.invitations.any fun r =>
      r.project_id == row.project_id && r.email == row.email && r.isPending now
  then .error "23505"
  else .ok ⟨db.invitations ++ [row]⟩

/-- Behaviour of the e-mail dispatch block after a successful insert:
`sendInvitationEmail` resolved successfully, resolved unsuccessfully, or
the block threw (and was caught by the inner
`try/catch`). -/
inductive EmailDispatch where
  | delivered
  | failed (err : String)
  | threw (err : String)
deriving Repr, DecidableEq

/-- The `handleInvite` handler from `ProjectMembersModal.tsx`: trim/empty check, e-mail
versus username resolution with self-invite checks, insert into
`project_invitations` (server supplies `newId`, `token`, timestamps;
`expires_at` is creation plus 7 days), `23505` mapped to the recoverable
"already invited" outcome before any e-mail is sent, and the e-mail
dispatched best-effort afterwards. Returns the user-visible outcome and the
resulting remote state. -/
def handleInvite (profiles : List Profile) (user : Option AuthUser)
    (projectId rawInput : String) (now : Nat) (newId token : String)
    (dispatch : EmailDispatch) (db : Db) : InviteOutcome × Db :=
  if isEmptyStr (trimStr rawInput) then (.inputRequired, db)
  else
    match user with
    | none => (.authRequired, db)
    | some user =>
      match resolveTarget profiles user (trimStr rawInput) with
      | .error o => (o, db)
      | .ok targetEmail =>
        let row : InvitationRow :=
          { id := newId, project_id := projectId, email := targetEmail
            role := "member", invited_by := user.id, inviter_email := user.email
            token := token, created_at := now, expires_at := now + 7 * 86400
            accepted_at := none }
        match insertInvitation now db row with
        | .error _ => (.duplicatePending, db)
        | .ok db2 =>
          match dispatch with
          | .delivered => (.emailSent targetEmail, db2)
          | .failed _ => (.emailNotSent targetEmail, db2)
          | .threw _ => (.emailDispatchThrew targetEmail, db2)

/-! ### Pending-invitation views -/

/-- Newest-first ordering on invitation rows: `a` before `b` when `a` was
created no earlier than `b` (`order("created_at", { ascending: false })`). -/
def createdGe (a b : InvitationRow) : Prop :=
  b.created_at ≤ a.created_at

instance : DecidableRel createdGe :=
  fun a b => inferInstanceAs (Decidable (b.created_at ≤ a.created_at))

instance : IsTotal InvitationRow createdGe :=
  ⟨fun a b => (Nat.le_total b.created_at a.created_at).elim Or.inl Or.inr⟩

instance : IsTrans InvitationRow createdGe :=
  ⟨fun _ _ _ hab hbc => Nat.le_trans hbc hab⟩

/-- The pending-invitations query of `loadMembersAndInvitations`:
`eq("project_id", pid)`, `is("accepted_at", null)`, `gt("expires_at", now)`,
`order("created_at", { ascending: false })`. -/
def pendingForProject (now : Nat) (pid : String) (rows : List InvitationRow) :
    List InvitationRow :=
  List.insertionSort createdGe
    (rows.filter fun r => r.project_id == pid && r.isPending now)

/-- The head-count query of `loadPendingInvitationsCount`:
`eq("email", userEmail)`, `is("accepted_at", null)`, `gt("expires_at", now)`,
in exact-count mode. -/
def pendingCountForUser (now : Nat) (userEmail : String) (rows : List InvitationRow) : Nat :=
  (rows.filter fun r => r.email == userEmail && r.isPending now).length

/-- The `handleCancelInvitation` handler: delete the row whose `id` equals the given
invitation id, leaving every other row in place. -/
def cancelInvitation (invId : String) (rows : List InvitationRow) : List InvitationRow :=
  rows.filter fun r => !(r.id == invId)

/-! ### Project-list filter (`AuthenticatedView.tsx`) -/

/-- A row of the `projects` table as the filter reads it: `description` and
`tags` are nullable. -/
structure Project where
  id : String
  name : String
  description : Option String
  tags : Option (List String)
  user_id : String
  created_at : Nat
  updated_at : Nat
deriving Repr, DecidableEq

/-- JS `hay.includes(needle)`: some prefix-aligned slice of `hay` equals
`needle`. -/
def containsSub (hay needle : String) : Bool :=
  (List.range (hay.toList.length + 1)).any fun i =>
    (hay.toList.drop i).take needle.toList.length == needle.toList

/-- The search-query predicate of `filterProjects`: the lowercased query is
a substring of the lowercased name, of the lowercased description (absent
description never matches), or of some lowercased tag. -/
def matchQuery (q : String) (p : Project) : Bool :=
  containsSub (toLowerStr p.name) (toLowerStr q) ||
  (match p.description with
   | some d => containsSub (toLowerStr d) (toLowerStr q)
   | none => false) ||
  (match p.tags with
   | some ts => ts.any fun t => containsSub (toLowerStr t) (toLowerStr q)
   | none => false)

/-- The tag predicate of `filterProjects`: the project has tags and every
selected tag is among them (verbatim comparison). -/
def matchTags (sel : List String) (p : Project) : Bool :=
  match p.tags with
  | some ts => sel.all fun t => ts.contains t
  | none => false

/-- First stage of `filterProjects`: `if (searchQuery) filtered = filtered.filter(...)`. -/
def filterByQuery (q : String) (ps : List Project) : List Project :=
  if isEmptyStr q then ps else ps.filter (matchQuery q)

/-- Second stage of `filterProjects`: `if (selectedTags.length > 0) filtered = filtered.filter(...)`. -/
def filterByTags (sel : List String) (ps : List Project) : List Project :=
  if sel.isEmpty then ps else ps.filter (matchTags sel)

/-- The `filterProjects` function: the query filter, then the tag filter, over the
already-loaded project list. -/
def filterProjects (q : String) (sel : List String) (ps : List Project) : List Project :=
  filterByTags sel (filterByQuery q ps)

/-! ### Create-project form (`CreateProjectModal.tsx`) -/

/-- The `handleAddTag` handler: on Enter, append the trimmed tag unless it is empty or
already present (verbatim `includes` comparison); otherwise leave the list
unchanged. -/
def handleAddTag (tags : List String) (newTag : String) : List String :=
  if !isEmptyStr (trimStr newTag) && !tags.contains (trimStr newTag)
  then tags ++ [trimStr newTag]
  else tags

/-- The tag list built by a sequence of add-tag keystrokes starting from the
initial empty list of the modal. -/
def addTags (inputs : List String) : List String :=
  inputs.foldl handleAddTag []

/-- The row `handleSubmit` inserts into `projects` in create mode. -/
structure ProjectInsert where
  user_id : String
  name : String
  description : Option String
  tags : List String
deriving Repr, DecidableEq

/-- Failure modes of `handleSubmit` before the insert: empty trimmed name
(the silent early return) and missing authenticated user. -/
inductive CreateError where
  | validationError
  | notAuthenticated
deriving Repr, DecidableEq

/-- The `handleSubmit` handler in create mode (`editingProject` absent): abort with no
insert when the trimmed name is empty, require a signed-in user, and
otherwise insert the trimmed name, the trimmed description-or-null and the
tag list, owned by the current user. -/
def createSubmit (user : Option AuthUser) (name description : String)
    (tags : List String) : Except CreateError ProjectInsert :=
  if isEmptyStr (trimStr name) then .error .validationError
  else
    match user with
    | none => .error .notAuthenticated
    | some u =>
      .ok { user_id := u.id, name := trimStr name
            description := if isEmptyStr (trimStr description) then none else some (trimStr description)
            tags := tags }

/-! ### Email dispatch (`emailService.ts`) -/

/-- The data `sendInvitationEmail` receives. -/
structure InvitationEmailData where
  email : String
  projectName : String
  inviterName : String
  invitationToken : String
  inviterUsername : Option String
deriving Repr, DecidableEq

/-- The data `sendContactEmail` receives. -/
structure ContactEmailData where
  name : String
  email : String
  message : String
deriving Repr, DecidableEq

/-- What one call of the external `emailjs.send` does: resolve with a
response, or reject/throw with an error message. -/
inductive ApiOutcome where
  | ok (response : String)
  | threw (message : String)
deriving Repr, DecidableEq

/-- The structured result both senders return: a success flag plus the
optional response and the optional error message. -/
structure EmailResult where
  success : Bool
  response : Option String
  error : Option String
deriving Repr, DecidableEq

/-- The `templateParams` object built by `sendInvitationEmail`
(`to_name` is the part of the address before the first `@`). -/
def invitationTemplateParams (origin : String) (d : InvitationEmailData) :
    List (String × String) :=
  [("to_email", d.email),
   ("project_name", d.projectName),
   ("inviter_name", d.inviterUsername.getD d.inviterName),
   ("invitation_link", origin ++ "/accept-invitation?token=" ++ d.invitationToken),
   ("to_name", (d.email.splitOn "@").headD "")]

/-- The `sendInvitationEmail` wrapper: build the template parameters, call the API, and
convert any outcome into a structured result inside the `try/catch`. The
behaviour of the API on the built parameters is the `api` argument. -/
def sendInvitationEmail (origin : String) (d : InvitationEmailData)
    (api : List (String × String) → ApiOutcome) : EmailResult :=
  let templateParams := invitationTemplateParams origin d
  match api templateParams with
  | .ok r => { success := true, response := some r, error := none }
  | .threw m => { success := false, response := none, error := some m }

/-- The `templateParams` object built by `sendContactEmail`. -/
def contactTemplateParams (d : ContactEmailData) : List (String × String) :=
  [("name", d.name), ("email", d.email), ("message", d.message)]

/-- The `sendContactEmail` wrapper: same structure as `sendInvitationEmail` with the
contact-form template. -/
def sendContactEmail (d : ContactEmailData)
    (api : List (String × String) → ApiOutcome) : EmailResult :=
  let templateParams := contactTemplateParams d
  match api templateParams with
  | .ok r => { success := true, response := some r, error := none }
  | .threw m => { success := false, response := none, error := some m }

/-! ### Combined members display list (`loadMembersAndInvitations`) -/

/-- A row of the `project_members` table, restricted to the fields the
display-list construction reads. -/
structure MemberRow where
  id : String
  user_id : String
  role : String
  email : Option String
  joined_at : Nat
  created_at : Nat
deriving Repr, DecidableEq

/-- The owner columns `loadMembersAndInvitations` reads from `projects`. -/
structure ProjectOwnerInfo where
  user_id : String
  created_at : Nat
deriving Repr, DecidableEq

/-- One entry of the combined display list (owner pseudo-entry or mapped
member row). -/
structure DisplayMember where
  user_id : String
  role : String
  email : String
deriving Repr, DecidableEq

/-- The fallback `value || "Email not available"` on a possibly-missing
string field. -/
def emailOrUnavailable (e : Option String) : String :=
  match e with
  | some s => if isEmptyStr s then "Email not available" else s
  | none => "Email not available"

/-- The owner e-mail resolution: the e-mail of the current user when they are
the owner, otherwise the member row of the owner if the owner also appears in
`project_members`, otherwise the placeholder. -/
def ownerEmail (user : Option AuthUser) (proj : ProjectOwnerInfo)
    (membersData : List MemberRow) : String :=
  let e0 : String :=
    match user with
    | some u => if u.id == proj.user_id then emailOrUnavailable (some u.email) else ""
    | none => ""
  if isEmptyStr e0 then
    emailOrUnavailable ((membersData.find? fun m => m.user_id == proj.user_id).bind MemberRow.email)
  else e0

/-- The `allMembers` list: the owner pseudo-entry first (role `owner`),
then every member row whose `user_id` differs from the owner id, in query
order. -/
def allMembers (user : Option AuthUser) (proj : ProjectOwnerInfo)
    (membersData : List MemberRow) : List DisplayMember :=
  { user_id := proj.user_id, role := "owner"
    email := ownerEmail user proj membersData } ::
  ((membersData.filter fun m => !(m.user_id == proj.user_id)).map fun m =>
    { user_id := m.user_id, role := m.role, email := emailOrUnavailable m.email })

/-! ### Shared lemmas -/

/-- A string is `isEmptyStr` exactly when it is the empty string. -/
theorem isEmptyStr_iff (s : String) : isEmptyStr s = true ↔ s = "" := by
  cases s with
  | mk data => simp [isEmptyStr, List.isEmpty_iff, String.ext_iff]

/-- The two sequential filters of `filterProjects` collapse to one stable
`List.filter` with the conjoined predicate. -/
theorem filterProjects_eq_filter (q : String) (sel : List String) (ps : List Project) :
    filterProjects q sel ps =
      ps.filter fun p => (isEmptyStr q || matchQuery q p) && (sel.isEmpty || matchTags sel p) := by
  cases hq : isEmptyStr q <;> cases hs : sel.isEmpty <;>
    simp [filterProjects, filterByQuery, filterByTags, hq, hs, List.filter_filter,
      Bool.and_comm]

/-! ### C9 -/

/-- C9: for every input and every behaviour of the external e-mail API
(resolved response or thrown/rejected error), `sendInvitationEmail` and
`sendContactEmail` never propagate an exception: each returns either
`{success := true, response, error := none}` or
`{success := false, response := none, error}`. -/
theorem emailSenders_never_throw :
    ∀ (origin : String) (d : InvitationEmailData) (c : ContactEmailData)
      (api : List (String × String) → ApiOutcome),
      ((∃ r, sendInvitationEmail origin d api =
          { success := true, response := some r, error := none }) ∨
        (∃ e, sendInvitationEmail origin d api =
          { success := false, response := none, error := some e })) ∧
      ((∃ r, sendContactEmail c api =
          { success := true, response := some r, error := none }) ∨
        (∃ e, sendContactEmail c api =
          { success := false, response := none, error := some e })) := by
  intro origin d c api
  constructor
  · cases h : api (invitationTemplateParams origin d) with
    | ok r => exact Or.inl ⟨r, by simp [sendInvitationEmail, h]⟩
    | threw m => exact Or.inr ⟨m, by simp [sendInvitationEmail, h]⟩
  · cases h : api (contactTemplateParams c) with
    | ok r => exact Or.inl ⟨r, by simp [sendContactEmail, h]⟩
    | threw m => exact Or.inr ⟨m, by simp [sendContactEmail, h]⟩

/-! ### C6 -/

/-- C6: the project filter is a pure function returning exactly the
projects that satisfy (query empty OR case-insensitive substring of name,
description, or some tag) AND (tag set empty OR every selected tag present
verbatim), as a single stable `List.filter` of the input sequence, so the
input order is preserved and nothing is re-sorted. -/
theorem filterProjects_correct :
    ∀ (q : String) (sel : List String) (ps : List Project),
      filterProjects q sel ps =
        (ps.filter fun p =>
          (isEmptyStr q || matchQuery q p) && (sel.isEmpty || matchTags sel p)) ∧
      ∀ p, p ∈ filterProjects q sel ps ↔
        p ∈ ps ∧ (q = "" ∨ matchQuery q p = true) ∧ (sel = [] ∨ matchTags sel p = true) := by
  intro q sel ps
  refine ⟨filterProjects_eq_filter q sel ps, fun p => ?_⟩
  rw [filterProjects_eq_filter, List.mem_filter]
  constructor
  · rintro ⟨hmem, hpred⟩
    simp only [Bool.and_eq_true, Bool.or_eq_true, isEmptyStr_iff,
      List.isEmpty_iff] at hpred
    exact ⟨hmem, hpred.1, hpred.2⟩
  · rintro ⟨hmem, hq, hs⟩
    refine ⟨hmem, ?_⟩
    simp only [Bool.and_eq_true, Bool.or_eq_true, isEmptyStr_iff, List.isEmpty_iff]
    exact ⟨hq, hs⟩

/-! ### C7 -/

/-- C7: filtering is idempotent — applying the same query/tag filter twice
equals applying it once — and its two stages commute: the query filter
followed by the tag filter equals the tag filter followed by the query
filter, on every project list. -/
theorem filterProjects_idempotent_and_commutative :
    ∀ (q : String) (sel : List String) (ps : List Project),
      filterProjects q sel (filterProjects q sel ps) = filterProjects q sel ps ∧
      filterByTags sel (filterByQuery q ps) = filterByQuery q (filterByTags sel ps) := by
  intro q sel ps
  constructor
  · simp [filterProjects_eq_filter, List.filter_filter]
  · cases hq : isEmptyStr q <;> cases hs : sel.isEmpty <;>
      simp only [filterByQuery, filterByTags, hq, hs, if_true, if_false,
        Bool.false_eq_true]
    exact List.filter_comm (matchTags sel) (matchQuery q) ps

/-! ### C1 -/

/-- C1: when the invite input resolves to the inviter themselves — an
e-mail-shaped input whose resolved e-mail equals the inviter e-mail, or a
username input resolving to a profile with the own user id of the inviter —
`handleInvite` fails with the self-invite error and performs no write: the
invitation table is returned unchanged, and no e-mail dispatch is attempted
(the result is the same for every dispatch behaviour). -/
theorem handleInvite_self_invite_no_write :
    ∀ (profiles : List Profile) (u : AuthUser) (projectId rawInput : String)
      (now : Nat) (newId token : String) (dispatch : EmailDispatch) (db : Db),
      isEmptyStr (trimStr rawInput) = false →
      ((matchesEmailPattern (trimStr rawInput) = true ∧
          toLowerStr (trimStr rawInput) = u.email) ∨
        (matchesEmailPattern (trimStr rawInput) = false ∧
          ∃ p, lookupProfileByUsername profiles (trimStr rawInput) = some p ∧
            p.user_id = u.id)) →
      handleInvite profiles (some u) projectId rawInput now newId token dispatch db =
        (.selfInvite, db) := by
  intro profiles u projectId rawInput now newId token dispatch db hin hres
  have hres' : resolveTarget profiles u (trimStr rawInput) = .error .selfInvite := by
    rcases hres with ⟨hm, he⟩ | ⟨hm, p, hl, hid⟩
    · simp [resolveTarget, hm, he]
    · simp [resolveTarget, hm, hl, hid]
  simp [handleInvite, hin, hres']

/-- Witness for C1: the inviter whose e-mail is `a@b.com` enters their own
address; the run returns the self-invite outcome and leaves the (empty)
invitation table untouched. -/
theorem handleInvite_self_invite_no_write_witness :
    isEmptyStr (trimStr "a@b.com") = false ∧
    matchesEmailPattern (trimStr "a@b.com") = true ∧
    toLowerStr (trimStr "a@b.com") = "a@b.com" ∧
    handleInvite [] (some ⟨"u1", "a@b.com"⟩) "p1" "a@b.com" 7 "i1" "t1"
        .delivered ⟨[]⟩ = (.selfInvite, ⟨[]⟩) :=
  ⟨by decide, by decide, by decide,
    handleInvite_self_invite_no_write [] ⟨"u1", "a@b.com"⟩ "p1" "a@b.com" 7 "i1" "t1"
      .delivered ⟨[]⟩ (by decide) (Or.inl ⟨by decide, by decide⟩)⟩

/-! ### C2 -/

/-- C2: when a pending invitation already exists for the project and the
resolved target e-mail, `handleInvite` fails with the recoverable
"already invited" outcome mapped from the storage-level uniqueness
violation (error code 23505): the invitation table is returned unchanged
(no new row), and no e-mail dispatch is attempted (the result is the same
for every dispatch behaviour). -/
theorem handleInvite_duplicate_pending :
    ∀ (profiles : List Profile) (u : AuthUser) (projectId rawInput : String)
      (now : Nat) (newId token : String) (dispatch : EmailDispatch) (db : Db)
      (targetEmail : String),
      isEmptyStr (trimStr rawInput) = false →
      resolveTarget profiles u (trimStr rawInput) = .ok targetEmail →
      (∃ r ∈ db.invitations, r.project_id = projectId ∧ r.email = targetEmail ∧
        r.isPending now = true) →
      handleInvite profiles (some u) projectId rawInput now newId token dispatch db =
        (.duplicatePending, db) := by
  intro profiles u projectId rawInput now newId token dispatch db targetEmail hin hres hdup
  have hany : (db.invitations.any fun r =>
      r.project_id == projectId && r.email == targetEmail && r.isPending now) = true := by
    rcases hdup with ⟨r, hr, h1, h2, h3⟩
    exact List.any_eq_true.mpr ⟨r, hr, by simp [h1, h2, h3]⟩
  simp [handleInvite, hin, hres, insertInvitation, hany]

/-- Witness for C2: with a pending invitation for (`p1`, `c@d.com`) already
stored, inviting `c@d.com` again returns the duplicate outcome and leaves
the table with the single original row. -/
theorem handleInvite_duplicate_pending_witness :
    isEmptyStr (trimStr "c@d.com") = false ∧
    resolveTarget [] ⟨"u1", "a@b.com"⟩ (trimStr "c@d.com") = .ok "c@d.com" ∧
    (⟨"i0", "p1", "c@d.com", "member", "u1", "a@b.com", "t0", 1, 100, none⟩ :
        InvitationRow).isPending 7 = true ∧
    handleInvite [] (some ⟨"u1", "a@b.com"⟩) "p1" "c@d.com" 7 "i1" "t1" .delivered
        ⟨[⟨"i0", "p1", "c@d.com", "member", "u1", "a@b.com", "t0", 1, 100, none⟩]⟩ =
      (.duplicatePending,
        ⟨[⟨"i0", "p1", "c@d.com", "member", "u1", "a@b.com", "t0", 1, 100, none⟩]⟩) :=
  ⟨by decide, by rfl, by decide,
    handleInvite_duplicate_pending [] ⟨"u1", "a@b.com"⟩ "p1" "c@d.com" 7 "i1" "t1"
      .delivered ⟨[⟨"i0", "p1", "c@d.com", "member", "u1", "a@b.com", "t0", 1, 100, none⟩]⟩
      "c@d.com" (by decide) (by rfl)
      ⟨⟨"i0", "p1", "c@d.com", "member", "u1", "a@b.com", "t0", 1, 100, none⟩,
        by simp, by decide, by decide, by decide⟩⟩

/-! ### C3 -/

/-- C3: once the invitation row is persisted, a failing e-mail result or a
throwing dispatch block never rolls it back: the resulting state is exactly
the previous table with the new row appended, and the outcome reports a
degraded success (invitation created, e-mail not sent) rather than an error
undoing the write. -/
theorem handleInvite_email_failure_keeps_row :
    ∀ (profiles : List Profile) (u : AuthUser) (projectId rawInput : String)
      (now : Nat) (newId token : String) (db : Db) (targetEmail err : String),
      isEmptyStr (trimStr rawInput) = false →
      resolveTarget profiles u (trimStr rawInput) = .ok targetEmail →
      (db.invitations.any fun r =>
        r.project_id == projectId && r.email == targetEmail && r.isPending now) = false →
      ∃ row : InvitationRow,
        row.project_id = projectId ∧ row.email = targetEmail ∧ row.accepted_at = none ∧
        handleInvite profiles (some u) projectId rawInput now newId token (.failed err) db =
          (.emailNotSent targetEmail, ⟨db.invitations ++ [row]⟩) ∧
        handleInvite profiles (some u) projectId rawInput now newId token (.threw err) db =
          (.emailDispatchThrew targetEmail, ⟨db.invitations ++ [row]⟩) := by
  intro profiles u projectId rawInput now newId token db targetEmail err hin hres hfree
  refine ⟨{ id := newId, project_id := projectId, email := targetEmail, role := "member"
            invited_by := u.id, inviter_email := u.email, token := token
            created_at := now, expires_at := now + 7 * 86400, accepted_at := none },
          rfl, rfl, rfl, ?_, ?_⟩ <;>
    simp [handleInvite, hin, hres, insertInvitation, hfree]

/-- Witness for C3: inviting `c@d.com` into an empty table with a failing
e-mail dispatch keeps the inserted row and reports the degraded success. -/
theorem handleInvite_email_failure_keeps_row_witness :
    isEmptyStr (trimStr "c@d.com") = false ∧
    resolveTarget [] ⟨"u1", "a@b.com"⟩ (trimStr "c@d.com") = .ok "c@d.com" ∧
    ∃ row : InvitationRow,
      row.project_id = "p1" ∧ row.email = "c@d.com" ∧ row.accepted_at = none ∧
      handleInvite [] (some ⟨"u1", "a@b.com"⟩) "p1" "c@d.com" 7 "i1" "t1"
          (.failed "boom") ⟨[]⟩ = (.emailNotSent "c@d.com", ⟨[] ++ [row]⟩) ∧
      handleInvite [] (some ⟨"u1", "a@b.com"⟩) "p1" "c@d.com" 7 "i1" "t1"
          (.threw "boom") ⟨[]⟩ = (.emailDispatchThrew "c@d.com", ⟨[] ++ [row]⟩) :=
  ⟨by decide, by rfl,
    handleInvite_email_failure_keeps_row [] ⟨"u1", "a@b.com"⟩ "p1" "c@d.com" 7 "i1" "t1"
      ⟨[]⟩ "c@d.com" "boom" (by decide) (by rfl) (by decide)⟩

/-! ### C4 -/

/-- C4 counterexample: the input `Bob@example.com` matches the e-mail
pattern, yet it is not used directly as the target e-mail — the resolver
returns the lowercased address `bob@example.com`, not the input verbatim. -/
theorem resolveTarget_not_verbatim_counterexample :
    matchesEmailPattern "Bob@example.com" = true ∧
    resolveTarget [] ⟨"u1", "a@b.com"⟩ "Bob@example.com" = .ok "bob@example.com" ∧
    resolveTarget [] ⟨"u1", "a@b.com"⟩ "Bob@example.com" ≠ .ok "Bob@example.com" := by
  refine ⟨by decide, by rfl, fun h => ?_⟩
  rw [show resolveTarget [] ⟨"u1", "a@b.com"⟩ "Bob@example.com" = .ok "bob@example.com"
    from rfl] at h
  exact absurd (Except.ok.inj h) (by decide)

/-- C4 (amended): an e-mail-shaped input is lowercased and used as the
target e-mail; any other input is treated as a username and resolved by
case-insensitive exact match, failing with the not-found outcome when no
profile matches and otherwise resolving to the stored e-mail of the matched
profile; both paths are subject to the self-invite check; and every
invitation row a `handleInvite` run adds to storage carries the resolved
concrete e-mail, never the username. -/
theorem resolveTarget_lowercased_and_stored_email :
    ∀ (profiles : List Profile) (u : AuthUser) (input : String),
      (matchesEmailPattern input = true →
        resolveTarget profiles u input =
          (if toLowerStr input == u.email then .error .selfInvite
            else .ok (toLowerStr input))) ∧
      (matchesEmailPattern input = false →
        lookupProfileByUsername profiles input = none →
        resolveTarget profiles u input = .error .notFound) ∧
      (∀ p, matchesEmailPattern input = false →
        lookupProfileByUsername profiles input = some p →
        resolveTarget profiles u input =
          (if p.user_id == u.id then .error .selfInvite else .ok p.email)) ∧
      (∀ projectId rawInput now newId token dispatch db targetEmail,
        isEmptyStr (trimStr rawInput) = false →
        resolveTarget profiles u (trimStr rawInput) = .ok targetEmail →
        ∀ r, r ∈ (handleInvite profiles (some u) projectId rawInput now newId token
            dispatch db).2.invitations →
          r ∈ db.invitations ∨ r.email = targetEmail) := by
  intro profiles u input
  refine ⟨fun hm => by simp [resolveTarget, hm], fun hm hl => by simp [resolveTarget, hm, hl],
    fun p hm hl => by simp [resolveTarget, hm, hl], ?_⟩
  intro projectId rawInput now newId token dispatch db targetEmail hin hres r hr
  cases hany : (db.invitations.any fun s =>
      s.project_id == projectId && s.email == targetEmail && s.isPending now) with
  | true =>
    simp [handleInvite, hin, hres, insertInvitation, hany] at hr
    exact Or.inl hr
  | false =>
    cases dispatch <;>
      simp [handleInvite, hin, hres, insertInvitation, hany] at hr <;>
      rcases hr with hr | hr <;> simp [hr]

/-- Witness for the amended C4: resolving `Bob@example.com` for an inviter
with a different address yields the lowercased target e-mail. -/
theorem resolveTarget_lowercased_and_stored_email_witness :
    matchesEmailPattern "Bob@example.com" = true ∧
    resolveTarget [] ⟨"u1", "a@b.com"⟩ "Bob@example.com" =
      (if toLowerStr "Bob@example.com" == "a@b.com" then .error .selfInvite
        else .ok (toLowerStr "Bob@example.com")) :=
  ⟨by decide,
    (resolveTarget_lowercased_and_stored_email [] ⟨"u1", "a@b.com"⟩ "Bob@example.com").1
      (by decide)⟩

/-! ### C5 -/

/-- C5: given distinct invitation ids, an invitation appears in the
pending list of the project iff it belongs to the project, `accepted_at` is null
and `expires_at` is strictly later than now; that list is sorted
newest-first by creation time; the pending count of the user counts exactly
the invitations for their e-mail satisfying the same pending condition;
and cancelling an invitation taken from the pending view deletes only that
row, so every expired invitation survives the only client-side delete. -/
theorem pending_views_correct :
    ∀ (now : Nat) (pid userEmail : String) (rows : List InvitationRow),
      (rows.map InvitationRow.id).Nodup →
      (∀ r, r ∈ pendingForProject now pid rows ↔
        r ∈ rows ∧ r.project_id = pid ∧ r.accepted_at = none ∧ now < r.expires_at) ∧
      (pendingForProject now pid rows).Sorted createdGe ∧
      pendingCountForUser now userEmail rows =
        rows.countP (fun r =>
          r.email == userEmail && r.accepted_at == none && decide (now < r.expires_at)) ∧
      (∀ inv e, inv ∈ pendingForProject now pid rows → e ∈ rows →
        e.expires_at ≤ now → e ∈ cancelInvitation inv.id rows) := by
  intro now pid userEmail rows hids
  have hmem : ∀ r, r ∈ pendingForProject now pid rows ↔
      r ∈ rows ∧ r.project_id = pid ∧ r.accepted_at = none ∧ now < r.expires_at := by
    intro r
    rw [pendingForProject, List.mem_insertionSort, List.mem_filter]
    simp [InvitationRow.isPending, and_assoc]
  refine ⟨hmem, List.sorted_insertionSort createdGe _, ?_, ?_⟩
  · rw [pendingCountForUser, ← List.countP_eq_length_filter]
    apply List.countP_congr
    intro r _
    simp [InvitationRow.isPending, Bool.and_assoc]
  · intro inv e hinv he hexp
    have hinv' := (hmem inv).mp hinv
    have hne : e.id ≠ inv.id := by
      intro hid
      have : e = inv :=
        List.inj_on_of_nodup_map hids he hinv'.1 hid
      exact absurd hinv'.2.2.2 (by rw [← this]; exact Nat.not_lt.mpr hexp)
    rw [cancelInvitation, List.mem_filter]
    exact ⟨he, by simpa using hne⟩

/-- Witness for C5: a table with one pending and one expired invitation for
project `p1`; the hypotheses and the pending/cancel behaviour are checked
at `now = 50`. -/
theorem pending_views_correct_witness :
    (([⟨"i1", "p1", "a@b.com", "member", "u0", "o@x.com", "t1", 10, 100, none⟩,
       ⟨"i2", "p1", "b@b.com", "member", "u0", "o@x.com", "t2", 5, 20, none⟩] :
        List InvitationRow).map InvitationRow.id).Nodup ∧
    ((⟨"i1", "p1", "a@b.com", "member", "u0", "o@x.com", "t1", 10, 100, none⟩ :
        InvitationRow) ∈
      pendingForProject 50 "p1"
        [⟨"i1", "p1", "a@b.com", "member", "u0", "o@x.com", "t1", 10, 100, none⟩,
         ⟨"i2", "p1", "b@b.com", "member", "u0", "o@x.com", "t2", 5, 20, none⟩] ↔
      (⟨"i1", "p1", "a@b.com", "member", "u0", "o@x.com", "t1", 10, 100, none⟩ :
          InvitationRow) ∈
        [⟨"i1", "p1", "a@b.com", "member", "u0", "o@x.com", "t1", 10, 100, none⟩,
         ⟨"i2", "p1", "b@b.com", "member", "u0", "o@x.com", "t2", 5, 20, none⟩] ∧
      "p1" = "p1" ∧ (none : Option Nat) = none ∧ 50 < 100) :=
  ⟨by decide,
    ((pending_views_correct 50 "p1" "a@b.com"
      [⟨"i1", "p1", "a@b.com", "member", "u0", "o@x.com", "t1", 10, 100, none⟩,
       ⟨"i2", "p1", "b@b.com", "member", "u0", "o@x.com", "t2", 5, 20, none⟩]
      (by decide)).1
      ⟨"i1", "p1", "a@b.com", "member", "u0", "o@x.com", "t1", 10, 100, none⟩)⟩

/-! ### C8 -/

/-- Adding a tag preserves distinctness: the trimmed tag is appended only
when the verbatim `contains` check misses. -/
theorem handleAddTag_nodup (tags : List String) (t : String) (h : tags.Nodup) :
    (handleAddTag tags t).Nodup := by
  unfold handleAddTag
  split
  · rename_i hcond
    have hmem : ¬ trimStr t ∈ tags := by
      simp only [Bool.and_eq_true, Bool.not_eq_true'] at hcond
      simpa using hcond.2
    simp [List.nodup_append, h, hmem]
  · exact h

/-- The tag list built from any keystroke sequence has no duplicates. -/
theorem addTags_nodup (inputs : List String) : (addTags inputs).Nodup := by
  have h : ∀ acc : List String, acc.Nodup → (inputs.foldl handleAddTag acc).Nodup := by
    induction inputs with
    | nil => exact fun acc h => h
    | cons a as ih => exact fun acc h => ih _ (handleAddTag_nodup acc a h)
  exact h [] List.nodup_nil

/-- C8: creating a project with a name that is empty after trimming fails
with the validation error and inserts nothing; otherwise the inserted row
carries the current identity as owner and the trimmed name; the tag list is
deduplicated client-side — any keystroke sequence yields a duplicate-free
list, each addition either leaves the list unchanged or appends the trimmed
tag at the end (insertion order preserved), and the comparison is
case-sensitive (`tag` is added next to `Tag`). -/
theorem createProject_validates_owns_and_dedups :
    ∀ (u : AuthUser) (user : Option AuthUser) (name description : String)
      (tags inputs : List String) (t : String),
      (isEmptyStr (trimStr name) = true →
        createSubmit user name description tags = .error .validationError) ∧
      (isEmptyStr (trimStr name) = false →
        createSubmit (some u) name description tags =
          .ok { user_id := u.id, name := trimStr name
                description := if isEmptyStr (trimStr description) then none
                  else some (trimStr description)
                tags := tags }) ∧
      (addTags inputs).Nodup ∧
      (handleAddTag tags t = tags ∨ handleAddTag tags t = tags ++ [trimStr t]) ∧
      handleAddTag ["Tag"] "tag" = ["Tag", "tag"] := by
  intro u user name description tags inputs t
  refine ⟨fun h => by simp [createSubmit, h], fun h => by simp [createSubmit, h],
    addTags_nodup inputs, ?_, by decide⟩
  unfold handleAddTag
  split
  · exact Or.inr rfl
  · exact Or.inl rfl

/-- Witness for C8: an empty name is rejected; `" My Project "` is inserted
trimmed and owned by `u1`. -/
theorem createProject_validates_owns_and_dedups_witness :
    isEmptyStr (trimStr "  ") = true ∧
    createSubmit (some ⟨"u1", "a@b.com"⟩) "  " "" [] = .error .validationError ∧
    isEmptyStr (trimStr " My Project ") = false ∧
    createSubmit (some ⟨"u1", "a@b.com"⟩) " My Project " " desc " ["x"] =
      .ok { user_id := "u1", name := "My Project", description := some "desc"
            tags := ["x"] } := by
  refine ⟨by decide, ?_, by decide, ?_⟩
  · exact (createProject_validates_owns_and_dedups ⟨"u1", "a@b.com"⟩
      (some ⟨"u1", "a@b.com"⟩) "  " "" [] [] "t").1 (by decide)
  · have h := (createProject_validates_owns_and_dedups ⟨"u1", "a@b.com"⟩
      (some ⟨"u1", "a@b.com"⟩) " My Project " " desc " ["x"] [] "t").2.1 (by decide)
    rw [h]; rfl

/-! ### C10 -/

/-- C10: for every backend state whose membership rows carry the stored
role `member` — including states where the `user_id` of a membership row
equals the owner of the project — the combined display list has exactly one
entry with role `owner`, that entry is first, and no later entry carries the
owner user id. -/
theorem allMembers_one_owner_first :
    ∀ (user : Option AuthUser) (proj : ProjectOwnerInfo) (membersData : List MemberRow),
      (∀ m ∈ membersData, m.role = "member") →
      (∃ e, (allMembers user proj membersData).head? = some e ∧
        e.role = "owner" ∧ e.user_id = proj.user_id) ∧
      ((allMembers user proj membersData).filter fun d => d.role == "owner").length = 1 ∧
      (∀ d ∈ (allMembers user proj membersData).tail,
        d.user_id ≠ proj.user_id ∧ d.role = "member") := by
  intro user proj membersData hroles
  have htail : ∀ d ∈ (allMembers user proj membersData).tail,
      d.user_id ≠ proj.user_id ∧ d.role = "member" := by
    intro d hd
    simp only [allMembers, List.tail_cons, List.mem_map, List.mem_filter] at hd
    rcases hd with ⟨m, ⟨hm, hneq⟩, rfl⟩
    refine ⟨by simpa using hneq, hroles m hm⟩
  refine ⟨⟨_, rfl, rfl, rfl⟩, ?_, htail⟩
  rw [allMembers, List.filter_cons]
  simp only [beq_self_eq_true, if_pos]
  rw [List.filter_eq_nil_iff.mpr, List.length_cons, List.length_nil]
  intro d hd
  have := (htail d (by simpa [allMembers] using hd)).2
  simp [this]

/-- Witness for C10: a backend state whose membership rows include one for
the owner themselves (`u1`) and one ordinary member (`u2`). -/
theorem allMembers_one_owner_first_witness :
    (∀ m ∈ ([⟨"m0", "u1", "member", none, 0, 0⟩,
             ⟨"m1", "u2", "member", some "e@x.com", 0, 1⟩] : List MemberRow),
      m.role = "member") ∧
    (∃ e, (allMembers none ⟨"u1", 0⟩
        [⟨"m0", "u1", "member", none, 0, 0⟩,
         ⟨"m1", "u2", "member", some "e@x.com", 0, 1⟩]).head? = some e ∧
      e.role = "owner" ∧ e.user_id = "u1") ∧
    ((allMembers none ⟨"u1", 0⟩
        [⟨"m0", "u1", "member", none, 0, 0⟩,
         ⟨"m1", "u2", "member", some "e@x.com", 0, 1⟩]).filter
      fun d => d.role == "owner").length = 1 ∧
    (∀ d ∈ (allMembers none ⟨"u1", 0⟩
        [⟨"m0", "u1", "member", none, 0, 0⟩,
         ⟨"m1", "u2", "member", some "e@x.com", 0, 1⟩]).tail,
      d.user_id ≠ "u1" ∧ d.role = "member") :=
  ⟨by decide,
    allMembers_one_owner_first none ⟨"u1", 0⟩
      [⟨"m0", "u1", "member", none, 0, 0⟩,
       ⟨"m1", "u2", "member", some "e@x.com", 0, 1⟩] (by decide)⟩

end YunoCode
